import Mathlib

/-!
Verification of the import-rewriting pass of swc-plugin-transform-import
(src/index.ts), shallowly embedded in Lean.

Modelling conventions:
* AST nodes carry only the fields the plugin reads or writes, plus an opaque
  `Nat` metadata field standing for all the fields an object spread copies
  verbatim (spans, flags, ...).  The plugin copies nodes with `{...node, ...}`,
  so metadata is threaded through unchanged.
* The options object is modelled as a string-keyed association list of its
  own properties (the keys the constructor assigned).  Property reads model
  the host's prototype chain: the `in` candidacy test also finds the
  `Object.prototype` member names (`objectPrototypeKeys`), and destructuring
  such an inherited property value yields `undefined` for all four rule
  fields (`inheritedRule`).  Constructor writes are modelled as own-property
  assignments, which is exact for every key except a config key that is
  literally `__proto__` (whose assignment would instead mutate the
  prototype); such a configuration is outside the model.
* JavaScript values that can flow through the `transform` option are modelled
  by `JsValue`: a string, a callable (which may throw), or `undefined`.
  Falsiness of those values is modelled by `JsValue.jsFalsy`.
* `require` is an injected loader `String → Except String JsValue` (a thrown
  load error on the left).  Thrown values are modelled as strings.
* Errors raised with `barf` (which prefixes 'swc-plugin-transform-imports: ')
  are `Err.plugin`; a value thrown by a user transform function propagates
  unchanged as `Err.thrown`.
* `String.replace(/\$\{\s?member\s?\}/ig, importName)` is embedded exactly:
  a left-to-right global scan matching the token `$` `{` `\s?` `member`
  (case-insensitive) `\s?` `}`, where the replacement string `importName` is
  processed by the `GetSubstitution` rules of the host language
  (`$$`, `$&`, the backquote and quote forms).
-/

namespace TransformImport

/-- Opening brace character (written by code to keep braces out of literals). -/
def braceO : Char := Char.ofNat 0x7b

/-- Closing brace character. -/
def braceC : Char := Char.ofNat 0x7d

/-- Backquote character, used by the `$`-backquote replacement pattern. -/
def backquote : Char := Char.ofNat 0x60

/-- Single quote character, used by the `$`-quote replacement pattern. -/
def squote : Char := Char.ofNat 0x27

/-- The character class `\s` of the host regex engine: space, tab, line
terminators, and the Unicode space separators. -/
def isJsSpace (c : Char) : Bool :=
  c == ' ' || c == '\t' || c == '\n' || c == '\r' ||
  c.toNat == 0x0b || c.toNat == 0x0c || c.toNat == 0xa0 || c.toNat == 0x1680 ||
  (decide (0x2000 ≤ c.toNat) && decide (c.toNat ≤ 0x200a)) ||
  c.toNat == 0x2028 || c.toNat == 0x2029 || c.toNat == 0x202f ||
  c.toNat == 0x205f || c.toNat == 0x3000 || c.toNat == 0xfeff

/-- The literal `member` of the pattern, as (lower, upper) pairs: with the `i`
flag each pattern letter matches exactly its two ASCII case variants. -/
def memberPat : List (Char × Char) := [('m', 'M'), ('e', 'E'), ('m', 'M'), ('b', 'B'), ('e', 'E'), ('r', 'R')]

/-- Match a case-insensitive literal at the front of `s`; on success return
the consumed characters (in their original case) and the rest. -/
def matchCI : List (Char × Char) → List Char → Option (List Char × List Char)
  | [], s => some ([], s)
  | _ :: _, [] => none
  | p :: ps, c :: s =>
    if (c == p.1 || c == p.2) then
      match matchCI ps s with
      | some (t, r) => some (c :: t, r)
      | none => none
    else none

/-- Consume at most one `\s` character (the `\s?` of the pattern). -/
def matchWs1 (s : List Char) : List Char × List Char :=
  match s with
  | c :: r => if isJsSpace c then ([c], r) else ([], s)
  | [] => ([], s)

/-- After `${` has been consumed: match `\s?member\s?}` and rebuild the full
matched token.  `matchWs1` is an exact model of the backtracking regex here:
a whitespace character can never begin `member` (which starts with `m`/`M`)
nor be the closing brace, so the greedy `\s?` is deterministic. -/
def matchTokAfterBrace (r0 : List Char) : Option (List Char × List Char) :=
  match matchCI memberPat (matchWs1 r0).2 with
  | none => none
  | some (m, r2) =>
    match (matchWs1 r2).2 with
    | c :: r4 =>
      if c == braceC then
        some ('$' :: braceO :: ((matchWs1 r0).1 ++ m ++ (matchWs1 r2).1 ++ [braceC]), r4)
      else none
    | [] => none

/-- Try to match the token `\$\{\s?member\s?\}` (flags `i`) at the front of
`s`; on success return the matched characters and the rest. -/
def matchTok (s : List Char) : Option (List Char × List Char) :=
  match s with
  | a :: b :: r0 => if (a == '$' && b == braceO) then matchTokAfterBrace r0 else none
  | _ => none

/-- The replacement-string processing of the host `replace` (GetSubstitution):
`$$` yields `$`, `$&` the matched token, backquote/quote forms the text before
and after the match; the pattern has no capture groups, so every other `$`
sequence is literal. -/
def getSubstitution (matched before after : List Char) : List Char → List Char
  | [] => []
  | c :: r =>
    if c == '$' then
      match r with
      | [] => ['$']
      | d :: r2 =>
        if d == '$' then '$' :: getSubstitution matched before after r2
        else if d == '&' then matched ++ getSubstitution matched before after r2
        else if d == backquote then before ++ getSubstitution matched before after r2
        else if d == squote then after ++ getSubstitution matched before after r2
        else c :: d :: getSubstitution matched before after r2
    else c :: getSubstitution matched before after r

/-- The global (`g`) replacement scan: at each position, replace a token match
and continue after it, otherwise copy one character.  `pre` is the already
scanned prefix of the original string (needed for the backquote pattern);
`fuel` is an upper bound on the remaining length, so the scan is structural. -/
def replaceScanF (member : List Char) : Nat → List Char → List Char → List Char
  | 0, _, s => s
  | _ + 1, _, [] => []
  | fuel + 1, pre, c :: rest =>
    match matchTok (c :: rest) with
    | some (tok, rest') =>
      getSubstitution tok pre rest' member ++ replaceScanF member fuel (pre ++ tok) rest'
    | none => c :: replaceScanF member fuel (pre ++ [c]) rest

/-- `template.replace(/\$\{\s?member\s?\}/ig, member)`. -/
def jsReplaceMemberG (template member : String) : String :=
  String.mk (replaceScanF member.toList template.toList.length [] template.toList)

/-- A JavaScript value that can appear as the `transform` option (or be
returned by the loader): a string, a callable (whose invocation may throw a
value, modelled as a string), or `undefined`. -/
inductive JsValue where
  | str (s : String)
  | fn (f : String → Except String String)
  | undef

/-- `typeof v === 'function'`. -/
def JsValue.isFn : JsValue → Bool
  | JsValue.fn _ => true
  | _ => false

/-- Falsiness of the modelled values: `undefined` and `''` are falsy. -/
def JsValue.jsFalsy : JsValue → Bool
  | JsValue.undef => true
  | JsValue.str s => s == ""
  | JsValue.fn _ => false

/-- String coercion of the modelled values.  The coercion of a function is
its source text; the embedding uses a placeholder, which is sound because
every branch that reads the coercion of a function value is insensitive to it
(the `|| isFunction` disjunct already holds). -/
def JsValue.jsToString : JsValue → String
  | JsValue.str s => s
  | JsValue.undef => "undefined"
  | JsValue.fn _ => "function"

/-- `/\.js$/i.test(s)`. -/
def endsWithJsCI (s : String) : Bool :=
  match s.toList.reverse with
  | c1 :: c2 :: c3 :: _ => (c1 == 's' || c1 == 'S') && (c2 == 'j' || c2 == 'J') && c3 == '.'
  | _ => false

/-- `/[\$\{\}]/.test(s)`. -/
def hasDollarBrace (s : String) : Bool :=
  s.toList.any (fun c => c == '$' || c == braceO || c == braceC)

/-- Errors escaping the rewrite: `plugin` is an `Error` thrown by `barf`,
`thrown` is a value thrown by a user transform function, propagated as is. -/
inductive Err where
  | plugin (msg : String)
  | thrown (e : String)
deriving DecidableEq

/-- `barf(msg)`: throw `new Error('swc-plugin-transform-imports: ' + msg)`. -/
def barfErr (msg : String) : Err := Err.plugin ("swc-plugin-transform-imports: " ++ msg)

/-- Whether an `Err` came from `barf` (the plugin's own error kind). -/
def Err.isPlugin : Err → Bool
  | Err.plugin _ => true
  | Err.thrown _ => false

/-- `transformImportPath(transformOption, importName)` from src/index.ts.
Returns `ok none` for the `undefined` result (falsy option), `ok (some s)`
for a produced path, and `error` when the function throws.  `req` is the
injected module loader standing for `require`. -/
def transformImportPath (req : String → Except String JsValue) (transformOption : JsValue) (importName : String) : Except Err (Option String) :=
  if transformOption.jsFalsy then Except.ok none
  else
    if (endsWithJsCI transformOption.jsToString && !hasDollarBrace transformOption.jsToString) || transformOption.isFn then
      match (if transformOption.isFn then Except.ok transformOption else req transformOption.jsToString) with
      | Except.error _ => Except.error (barfErr ("failed to require transform file " ++ transformOption.jsToString))
      | Except.ok transformFn =>
        match transformFn with
        | JsValue.fn f =>
          match f importName with
          | Except.ok s => Except.ok (some s)
          | Except.error e => Except.error (Err.thrown e)
        | _ => Except.error (barfErr ("expected transform function to be exported from " ++ transformOption.jsToString))
    else
      Except.ok (some (jsReplaceMemberG transformOption.jsToString importName))

/-- An identifier node: its `value` plus opaque further fields. -/
structure Ident where
  value : String
  idMeta : Nat
deriving DecidableEq

/-- The three import specifier shapes of the AST.  A named `ImportSpecifier`
has a `local` binding and an optional `imported` name (`none` when the member
is not aliased); each carries opaque further fields. -/
inductive Specifier where
  | importSpecifier (lcl : Ident) (imported : Option Ident) (sMeta : Nat)
  | importDefaultSpecifier (lcl : Ident) (sMeta : Nat)
  | importNamespaceSpecifier (lcl : Ident) (sMeta : Nat)
deriving DecidableEq

/-- The `source` string literal node of an import declaration.  Its `value`
is `Option String` because the plugin can write the `undefined` result of
`transformImportPath` into a copied node. -/
structure Source where
  value : Option String
  srcMeta : Nat
deriving DecidableEq

/-- A top-level module item: an import declaration (the only node shape the
pass inspects) or any other statement, opaque to the pass. -/
inductive ModuleItem where
  | importDecl (source : Source) (specifiers : List Specifier) (nMeta : Nat)
  | other (tag : Nat)
deriving DecidableEq

/-- A normalized module rule (`SubOpts` merged over `DEFAULT_OPTS`). -/
structure SubOpts where
  transform : JsValue
  preventFullImport : Bool
  skipDefaultConversion : Bool
  style : Bool

/-- A module rule as supplied by the caller: fields other than `transform`
may be absent and are filled from `DEFAULT_OPTS` by the constructor. -/
structure RawSubOpts where
  transform : Option JsValue
  preventFullImport : Option Bool
  skipDefaultConversion : Option Bool
  style : Option Bool

/-- `{...DEFAULT_OPTS, ...opts[key]}`: absent fields default, `transform`
has no default (absent stays `undefined`). -/
def normalizeOpts (r : RawSubOpts) : SubOpts :=
  ⟨r.transform.getD JsValue.undef, r.preventFullImport.getD false,
   r.skipDefaultConversion.getD false, r.style.getD false⟩

/-- The constructor of `PluginTransformImport`: normalize every entry. -/
def mkOpts (opts : List (String × RawSubOpts)) : List (String × SubOpts) :=
  opts.map (fun kv => (kv.1, normalizeOpts kv.2))

/-- Property access on the options table.  A JS property key is always a
string; an `undefined` source value is coerced to the key `"undefined"`,
and the same coercion applies in template literals, so one helper serves
both (`jsStr`). -/
def jsStr (v : Option String) : String := v.getD "undefined"

/-- Own-property lookup in the (unique-keyed) options table: the keys the
constructor assigned. -/
def lookupOpts (opts : List (String × SubOpts)) (k : String) : Option SubOpts :=
  match opts with
  | [] => none
  | kv :: rest => if kv.1 == k then some kv.2 else lookupOpts rest k

/-- The own property names of `Object.prototype`, the prototype of the plain
object holding the options: the `in` operator finds these on every plain
object even when they were never configured. -/
def objectPrototypeKeys : List String :=
  ["constructor", "hasOwnProperty", "isPrototypeOf", "propertyIsEnumerable",
   "toLocaleString", "toString", "valueOf", "__defineGetter__", "__defineSetter__",
   "__lookupGetter__", "__lookupSetter__", "__proto__"]

/-- `node.source.value in opts`: the `in` operator consults the prototype
chain, so a key is found when it is an own key of the table or any
`Object.prototype` property name. -/
def jsInOpts (opts : List (String × SubOpts)) (k : String) : Bool :=
  (lookupOpts opts k).isSome || objectPrototypeKeys.contains k

/-- The module rule obtained by destructuring an *inherited* property of the
options object (e.g. `opts['toString']`, the `Object.prototype.toString`
function): none of the four rule fields exists on such a value, so every
field reads `undefined`. -/
def inheritedRule : SubOpts := ⟨JsValue.undef, false, false, false⟩

/-- `opts[source.value]` followed by destructuring the four rule fields,
evaluated only under a successful `in` test: an own key yields its rule, an
inherited `Object.prototype` property yields all-`undefined` fields. -/
def ruleOf (opts : List (String × SubOpts)) (k : String) : SubOpts :=
  (lookupOpts opts k).getD inheritedRule

/-- `specifier?.imported?.value`, with the undefined chain collapsing to the
falsy `""` (the code only ever tests this value for truthiness). -/
def importedValue : Option Ident → String
  | some i => i.value
  | none => ""

/-- `doesImportedValueExist`: a named specifier with a truthy imported name. -/
def hasImportedValue (imp : Option Ident) : Bool := importedValue imp != ""

/-- `actualImportVariable`: the imported name when truthy, else the local
name.  (The subsequent `|| ''` in the source is the identity on strings.) -/
def actualImport (lcl : Ident) (imp : Option Ident) : String :=
  if hasImportedValue imp then importedValue imp else lcl.value

/-- `newSpecifier`: keep the named specifier when `skipDefaultConversion`
applies (which also needs a truthy imported name), else convert it to a
default specifier binding the same local name (the spread keeps `local` and
the opaque fields, nulls `imported`, and retypes the node). -/
def newSpecifier (rule : SubOpts) (lcl : Ident) (imported : Option Ident) (sMeta : Nat) : Specifier :=
  if rule.skipDefaultConversion && hasImportedValue imported then
    Specifier.importSpecifier lcl imported sMeta
  else
    Specifier.importDefaultSpecifier lcl sMeta

/-- The body of the per-specifier loop of `visitModuleItems`, producing the
replacement statements for one specifier of a matching import declaration.
A named specifier yields its converted declaration (plus, with `style`, the
side-effect style import); a default specifier yields a copy of the
declaration carrying just itself; a namespace specifier matches no branch of
the source and yields nothing. -/
def emitSpecifier (req : String → Except String JsValue) (rule : SubOpts) (src : Source) (nMeta : Nat) : Specifier → Except Err (List ModuleItem)
  | Specifier.importSpecifier lcl imported sMeta =>
    match transformImportPath req rule.transform (actualImport lcl imported) with
    | Except.error e => Except.error e
    | Except.ok value =>
      if rule.style then
        Except.ok [ModuleItem.importDecl ⟨value, src.srcMeta⟩ [newSpecifier rule lcl imported sMeta] nMeta,
                   ModuleItem.importDecl ⟨some (jsStr value ++ "/style"), src.srcMeta⟩ [] nMeta]
      else
        Except.ok [ModuleItem.importDecl ⟨value, src.srcMeta⟩ [newSpecifier rule lcl imported sMeta] nMeta]
  | Specifier.importDefaultSpecifier lcl sMeta =>
    Except.ok [ModuleItem.importDecl src [Specifier.importDefaultSpecifier lcl sMeta] nMeta]
  | Specifier.importNamespaceSpecifier _ _ =>
    Except.ok []

/-- Run `emitSpecifier` over the specifier list in order, concatenating. -/
def emitSpecifiers (req : String → Except String JsValue) (rule : SubOpts) (src : Source) (nMeta : Nat) : List Specifier → Except Err (List ModuleItem)
  | [] => Except.ok []
  | sp :: rest =>
    match emitSpecifier req rule src nMeta sp with
    | Except.error e => Except.error e
    | Except.ok h =>
      match emitSpecifiers req rule src nMeta rest with
      | Except.error e => Except.error e
      | Except.ok t => Except.ok (h ++ t)

/-- `specifier.type === 'ImportDefaultSpecifier'`. -/
def isDefaultSpec : Specifier → Bool
  | Specifier.importDefaultSpecifier _ _ => true
  | _ => false

/-- Processing of one matching import declaration: the `preventFullImport`
check (which tests only for a default specifier), then the specifier loop. -/
def processImport (req : String → Except String JsValue) (rule : SubOpts) (src : Source) (sps : List Specifier) (nMeta : Nat) : Except Err (List ModuleItem) :=
  if sps.any isDefaultSpec && rule.preventFullImport then
    Except.error (barfErr ("Import of entire module " ++ jsStr src.value ++ " not allowed due to preventFullImport setting"))
  else
    emitSpecifiers req rule src nMeta sps

/-- `isValidTranformCandidate`: an import declaration whose source value the
`in` operator finds on the options object — an own key or an inherited
`Object.prototype` property name. -/
def isValidTransformCandidate (opts : List (String × SubOpts)) : ModuleItem → Bool
  | ModuleItem.importDecl src _ _ => jsInOpts opts (jsStr src.value)
  | ModuleItem.other _ => false

/-- The statement loop of `visitModuleItems` (reached when the options table
is nonempty): candidates are replaced by their emitted statements, everything
else is appended unchanged; a thrown error aborts the whole rewrite. -/
def transformNodes (req : String → Except String JsValue) (opts : List (String × SubOpts)) : List ModuleItem → Except Err (List ModuleItem)
  | [] => Except.ok []
  | node :: rest =>
    match node with
    | ModuleItem.importDecl src sps nMeta =>
      if jsInOpts opts (jsStr src.value) then
        match processImport req (ruleOf opts (jsStr src.value)) src sps nMeta with
        | Except.error e => Except.error e
        | Except.ok heads =>
          match transformNodes req opts rest with
          | Except.error e => Except.error e
          | Except.ok tail => Except.ok (heads ++ tail)
      else
        match transformNodes req opts rest with
        | Except.error e => Except.error e
        | Except.ok tail => Except.ok (ModuleItem.importDecl src sps nMeta :: tail)
    | ModuleItem.other tag =>
      match transformNodes req opts rest with
      | Except.error e => Except.error e
      | Except.ok tail => Except.ok (ModuleItem.other tag :: tail)

/-- `visitModuleItems(nodes)` of `PluginTransformImport`, constructed with
the normalized options `opts`: the input is returned as is when no options
were provided, otherwise the statement loop runs. -/
def visitModuleItems (req : String → Except String JsValue) (opts : List (String × SubOpts)) (nodes : List ModuleItem) : Except Err (List ModuleItem) :=
  if opts.isEmpty then Except.ok nodes else transformNodes req opts nodes

/-- A loader that fails on every reference (no external transform files are
present); used to instantiate theorems whose claims never load a file. -/
def req0 : String → Except String JsValue := fun _ => Except.error "module not found"

/-- A transform callable that throws on every invocation. -/
def throwingFn : String → Except String String := fun _ => Except.error "boom"

/-- A transform callable that returns `lib/` followed by the member name. -/
def fnOkA : String → Except String String := fun x => Except.ok ("lib/" ++ x)

/-- The rule `{ transform: "lib/${member}" }` with all other fields absent. -/
def rawLib : RawSubOpts := ⟨some (JsValue.str "lib/$\x7bmember\x7d"), none, none, none⟩

/-- The config `{ "lib": { transform: "lib/${member}" } }`, normalized. -/
def cfgLib : List (String × SubOpts) := mkOpts [("lib", rawLib)]

/-- The rule `{ transform: "lib/${member}", preventFullImport: true }`. -/
def rawLibPrevent : RawSubOpts := ⟨some (JsValue.str "lib/$\x7bmember\x7d"), some true, none, none⟩

/-- The config `{ "lib": { transform: "lib/${member}", preventFullImport: true } }`. -/
def cfgLibPrevent : List (String × SubOpts) := mkOpts [("lib", rawLibPrevent)]

/-- The rule `{ transform: "lib/${member}", skipDefaultConversion: true }`. -/
def rawLibSkip : RawSubOpts := ⟨some (JsValue.str "lib/$\x7bmember\x7d"), none, some true, none⟩

/-- The config `{ "lib": { transform: "lib/${member}", skipDefaultConversion: true } }`. -/
def cfgLibSkip : List (String × SubOpts) := mkOpts [("lib", rawLibSkip)]

/-- The rule `{ transform: "antd/es/${member}", style: true }`. -/
def rawAntd : RawSubOpts := ⟨some (JsValue.str "antd/es/$\x7bmember\x7d"), none, none, some true⟩

/-- The config `{ "antd": { transform: "antd/es/${member}", style: true } }`. -/
def cfgAntd : List (String × SubOpts) := mkOpts [("antd", rawAntd)]

/-- A single optional whitespace padding, as the placeholder grammar of the
specification allows: empty, or exactly one whitespace character. -/
def isWs1 (w : List Char) : Bool :=
  match w with
  | [] => true
  | [c] => isJsSpace c
  | _ => false

/-- Case-insensitive equality of a character list with a pattern literal. -/
def ciMatches : List (Char × Char) → List Char → Bool
  | [], [] => true
  | p :: ps, c :: cs => (c == p.1 || c == p.2) && ciMatches ps cs
  | _, _ => false

/-- Claim-side formalization of a placeholder token: `${member}` written
case-insensitively, tolerant of one whitespace character of internal padding
on either side of the word. -/
def IsTokL (t : List Char) : Prop :=
  ∃ w1 m w2, isWs1 w1 = true ∧ isWs1 w2 = true ∧ ciMatches memberPat m = true ∧
    t = '$' :: braceO :: (w1 ++ m ++ w2 ++ [braceC])

/-- A placeholder-token occurrence begins at the front of `s`. -/
def StartsTok (s : List Char) : Prop := ∃ t r, IsTokL t ∧ s = t ++ r

/-- Claim-side characterization of the substitution: the result is obtained
from the template by replacing every occurrence of a placeholder token with
the member name and copying every other character unchanged (a character may
be copied only where no token occurrence begins, so no occurrence is missed). -/
inductive SpecSubst (member : List Char) : List Char → List Char → Prop where
  | nil : SpecSubst member [] []
  | keep (c : Char) (t r : List Char) : ¬ StartsTok (c :: t) → SpecSubst member t r →
      SpecSubst member (c :: t) (c :: r)
  | tok (tk t r : List Char) : IsTokL tk → SpecSubst member t r →
      SpecSubst member (tk ++ t) (member ++ r)

/-!
Theorems.  Helper lemmas come first, then one theorem per claim (with its
witness or counterexample where required).
-/

/-- The statement loop distributes over list append (up to the error
short-circuit). -/
theorem transformNodes_append (req : String → Except String JsValue) (opts : List (String × SubOpts)) (xs ys : List ModuleItem) :
    transformNodes req opts (xs ++ ys) =
      match transformNodes req opts xs with
      | Except.error e => Except.error e
      | Except.ok a =>
        match transformNodes req opts ys with
        | Except.error e => Except.error e
        | Except.ok b => Except.ok (a ++ b) := by
  induction xs with
  | nil =>
    simp only [List.nil_append, transformNodes]
    cases transformNodes req opts ys <;> simp
  | cons n rest ih =>
    cases n with
    | importDecl src sps nMeta =>
      by_cases hin : jsInOpts opts (jsStr src.value) = true
      · cases hp : processImport req (ruleOf opts (jsStr src.value)) src sps nMeta with
        | error e => simp only [List.cons_append, transformNodes, hin, if_true, hp]
        | ok heads =>
          simp only [List.cons_append, transformNodes, hin, if_true, hp, List.append_eq, ih]
          cases transformNodes req opts rest with
          | error e => rfl
          | ok a =>
            cases transformNodes req opts ys with
            | error e => rfl
            | ok b => simp [List.append_assoc]
      · rw [Bool.not_eq_true] at hin
        simp only [List.cons_append, transformNodes, hin, Bool.false_eq_true, if_false,
          List.append_eq, ih]
        cases transformNodes req opts rest with
        | error e => rfl
        | ok a =>
          cases transformNodes req opts ys with
          | error e => rfl
          | ok b => rfl
    | other tag =>
      simp only [List.cons_append, transformNodes, List.append_eq, ih]
      cases transformNodes req opts rest with
      | error e => rfl
      | ok a =>
        cases transformNodes req opts ys with
        | error e => rfl
        | ok b => rfl

/-- A statement that is not a transform candidate passes through the loop
unchanged, in place. -/
theorem transformNodes_noncand (req : String → Except String JsValue) (opts : List (String × SubOpts)) (node : ModuleItem) (rest : List ModuleItem)
    (h : isValidTransformCandidate opts node = false) :
    transformNodes req opts (node :: rest) =
      match transformNodes req opts rest with
      | Except.error e => Except.error e
      | Except.ok tail => Except.ok (node :: tail) := by
  cases node with
  | importDecl src sps nMeta =>
    simp only [isValidTransformCandidate] at h
    simp only [transformNodes, h, Bool.false_eq_true, if_false]
  | other tag => simp only [transformNodes]

/-- A successful key lookup means the options table is nonempty. -/
theorem lookupOpts_isEmpty_false (opts : List (String × SubOpts)) (k : String) (rule : SubOpts)
    (h : lookupOpts opts k = some rule) : opts.isEmpty = false := by
  cases opts with
  | nil => simp [lookupOpts] at h
  | cons kv rest => rfl

/-- Soundness of the case-insensitive literal matcher: on success the input
splits as the consumed characters followed by the rest, and the consumed
characters match the pattern. -/
theorem matchCI_sound (pat : List (Char × Char)) : ∀ (s t r : List Char),
    matchCI pat s = some (t, r) → s = t ++ r ∧ ciMatches pat t = true := by
  induction pat with
  | nil =>
    intro s t r h
    simp only [matchCI, Option.some.injEq, Prod.mk.injEq] at h
    obtain ⟨h1, h2⟩ := h
    subst h1; subst h2
    exact ⟨rfl, rfl⟩
  | cons p ps ih =>
    intro s t r h
    cases s with
    | nil => simp [matchCI] at h
    | cons c cs =>
      simp only [matchCI] at h
      by_cases hc : (c == p.1 || c == p.2) = true
      · rw [if_pos hc] at h
        cases hm : matchCI ps cs with
        | none => rw [hm] at h; simp at h
        | some pr =>
          obtain ⟨t2, r2⟩ := pr
          rw [hm] at h
          simp only [Option.some.injEq, Prod.mk.injEq] at h
          obtain ⟨h1, h2⟩ := h
          subst h1; subst h2
          obtain ⟨hs2, hm2⟩ := ih cs t2 r2 hm
          constructor
          · rw [List.cons_append, hs2]
          · simp [ciMatches, hc, hm2]
      · rw [if_neg hc] at h; simp at h

/-- Completeness of the case-insensitive literal matcher. -/
theorem matchCI_complete (pat : List (Char × Char)) : ∀ (t r : List Char),
    ciMatches pat t = true → matchCI pat (t ++ r) = some (t, r) := by
  induction pat with
  | nil =>
    intro t r h
    cases t with
    | nil => rfl
    | cons c cs => simp [ciMatches] at h
  | cons p ps ih =>
    intro t r h
    cases t with
    | nil => simp [ciMatches] at h
    | cons c cs =>
      simp only [ciMatches, Bool.and_eq_true] at h
      obtain ⟨hc, hm⟩ := h
      simp only [List.cons_append, matchCI, hc, if_true, List.append_eq, ih cs r hm]

/-- `matchWs1` consumes a valid `\s?` padding and returns the rest. -/
theorem matchWs1_spec (s : List Char) :
    s = (matchWs1 s).1 ++ (matchWs1 s).2 ∧ isWs1 (matchWs1 s).1 = true := by
  cases s with
  | nil => exact ⟨rfl, rfl⟩
  | cons c r =>
    by_cases hc : isJsSpace c = true
    · simp [matchWs1, hc, isWs1]
    · simp [matchWs1, hc, isWs1]

/-- `matchWs1` consumes a leading whitespace character. -/
theorem matchWs1_space (c : Char) (h : isJsSpace c = true) :
    ∀ (r : List Char), matchWs1 (c :: r) = ([c], r) := by
  intro r; simp [matchWs1, h]

/-- `matchWs1` consumes nothing when the head is not whitespace. -/
theorem matchWs1_nospace (c : Char) (h : isJsSpace c = false) :
    ∀ (r : List Char), matchWs1 (c :: r) = ([], c :: r) := by
  intro r; simp [matchWs1, h]

/-- The shapes a `\s?` padding can take. -/
theorem isWs1_cases (w : List Char) (h : isWs1 w = true) :
    w = [] ∨ ∃ c, isJsSpace c = true ∧ w = [c] := by
  cases w with
  | nil => exact Or.inl rfl
  | cons c t =>
    cases t with
    | nil => exact Or.inr ⟨c, by simpa [isWs1] using h, rfl⟩
    | cons d t2 => simp [isWs1] at h

/-- Soundness of the token matcher: a match splits the input as the matched
token followed by the rest, and the matched token is a placeholder token in
the claim-side sense. -/
theorem matchTok_sound (s tk r : List Char) (h : matchTok s = some (tk, r)) :
    s = tk ++ r ∧ IsTokL tk := by
  cases s with
  | nil => simp [matchTok] at h
  | cons a s1 =>
    cases s1 with
    | nil => simp [matchTok] at h
    | cons b r0 =>
      simp only [matchTok] at h
      by_cases hab : (a == '$' && b == braceO) = true
      · rw [if_pos hab] at h
        simp only [Bool.and_eq_true, beq_iff_eq] at hab
        obtain ⟨ha, hb⟩ := hab
        subst ha; subst hb
        cases hm : matchCI memberPat (matchWs1 r0).2 with
        | none => simp [matchTokAfterBrace, hm] at h
        | some pr =>
          obtain ⟨m, r2⟩ := pr
          simp only [matchTokAfterBrace, hm] at h
          cases hw2 : (matchWs1 r2).2 with
          | nil => simp [hw2] at h
          | cons c r4 =>
            simp only [hw2] at h
            by_cases hc : (c == braceC) = true
            · rw [if_pos hc] at h
              simp only [Option.some.injEq, Prod.mk.injEq] at h
              obtain ⟨htk, hr⟩ := h
              subst htk; subst hr
              rw [beq_iff_eq] at hc
              subst hc
              obtain ⟨hr0, hws1⟩ := matchWs1_spec r0
              obtain ⟨hmci1, hmci2⟩ := matchCI_sound memberPat (matchWs1 r0).2 m r2 hm
              obtain ⟨hr2, hws2⟩ := matchWs1_spec r2
              set w1 := (matchWs1 r0).1
              set rest1 := (matchWs1 r0).2
              set w2v := (matchWs1 r2).1
              set rest2 := (matchWs1 r2).2
              constructor
              · rw [hr0, hmci1, hr2, hw2]
                simp [List.append_assoc]
              · exact ⟨w1, m, w2v, hws1, hws2, hmci2, rfl⟩
            · rw [if_neg hc] at h; simp at h
      · rw [if_neg hab] at h; simp at h

/-- Completeness of the token matcher: a placeholder token at the front of
the input is matched exactly.  (The greedy `\s?` is deterministic because a
whitespace character can begin neither `member` nor `}`.) -/
theorem matchTok_complete (tk r : List Char) (h : IsTokL tk) :
    matchTok (tk ++ r) = some (tk, r) := by
  obtain ⟨w1, m, w2, hw1, hw2, hm, rfl⟩ := h
  cases m with
  | nil => simp [ciMatches, memberPat] at hm
  | cons c0 m' =>
    have hc0 : (c0 == 'm' || c0 == 'M') = true := by
      simp only [memberPat, ciMatches, Bool.and_eq_true] at hm
      exact hm.1
    have hc0s : isJsSpace c0 = false := by
      rw [Bool.or_eq_true, beq_iff_eq, beq_iff_eq] at hc0
      rcases hc0 with h | h <;> subst h <;> decide
    have hbs : isJsSpace braceC = false := by decide
    simp only [List.cons_append, List.append_assoc, matchTok, beq_self_eq_true, Bool.and_self, if_true]
    rcases isWs1_cases w1 hw1 with rfl | ⟨cw1, hcw1, rfl⟩
    · rcases isWs1_cases w2 hw2 with rfl | ⟨cw2, hcw2, rfl⟩
      · have hci := matchCI_complete memberPat (c0 :: m') (braceC :: r) hm
        rw [List.cons_append] at hci
        simp only [matchTokAfterBrace, List.nil_append, matchWs1_nospace c0 hc0s, hci,
          matchWs1_nospace braceC hbs, beq_self_eq_true, if_true, List.cons_append,
          List.append_assoc, List.append_nil]
      · have hci := matchCI_complete memberPat (c0 :: m') (cw2 :: braceC :: r) hm
        rw [List.cons_append] at hci
        simp only [matchTokAfterBrace, List.nil_append, List.cons_append, List.append_assoc,
          matchWs1_nospace c0 hc0s, hci, matchWs1_space cw2 hcw2,
          beq_self_eq_true, if_true, List.append_nil]
    · rcases isWs1_cases w2 hw2 with rfl | ⟨cw2, hcw2, rfl⟩
      · have hci := matchCI_complete memberPat (c0 :: m') (braceC :: r) hm
        rw [List.cons_append] at hci
        simp only [matchTokAfterBrace, List.nil_append, List.cons_append, List.append_assoc,
          matchWs1_space cw1 hcw1, matchWs1_nospace c0 hc0s, hci,
          matchWs1_nospace braceC hbs, beq_self_eq_true, if_true, List.append_nil]
      · have hci := matchCI_complete memberPat (c0 :: m') (cw2 :: braceC :: r) hm
        rw [List.cons_append] at hci
        simp only [matchTokAfterBrace, List.nil_append, List.cons_append, List.append_assoc,
          matchWs1_space cw1 hcw1, matchWs1_nospace c0 hc0s, hci, matchWs1_space cw2 hcw2,
          beq_self_eq_true, if_true, List.append_nil]

/-- When the token matcher fails, no placeholder token begins here. -/
theorem not_startsTok_of_matchTok_none (s : List Char) (h : matchTok s = none) :
    ¬ StartsTok s := by
  rintro ⟨t, r, ht, rfl⟩
  rw [matchTok_complete t r ht] at h
  cases h

/-- Every placeholder token begins with `$`. -/
theorem isTokL_head (t : List Char) (h : IsTokL t) : ∃ u, t = '$' :: u := by
  obtain ⟨w1, m, w2, _, _, _, rfl⟩ := h
  exact ⟨_, rfl⟩

/-- No placeholder token begins at a character other than `$`. -/
theorem not_startsTok_of_head (c : Char) (t : List Char) (hc : c ≠ '$') :
    ¬ StartsTok (c :: t) := by
  rintro ⟨tk, r, htk, he⟩
  obtain ⟨u, rfl⟩ := isTokL_head tk htk
  rw [List.cons_append] at he
  exact hc (by injection he)

/-- A replacement string without `$` is inserted verbatim. -/
theorem getSubstitution_no_dollar (matched before after : List Char) :
    ∀ (repl : List Char), '$' ∉ repl →
      getSubstitution matched before after repl = repl := by
  intro repl
  induction repl with
  | nil => intro _; rfl
  | cons c r ih =>
    intro h
    simp only [List.mem_cons, not_or] at h
    have hc : (c == '$') = false := by
      simp only [beq_eq_false_iff_ne]
      exact fun he => h.1 he.symm
    rw [getSubstitution.eq_def]
    simp only [hc, Bool.false_eq_true, if_false]
    rw [ih h.2]

/-- The replacement scan realizes the claim-side substitution relation for
any member name without `$`, at any fuel at least the scanned length. -/
theorem specSubst_replaceScanF (member : List Char) (hm : '$' ∉ member) :
    ∀ (fuel : Nat) (s pre : List Char), s.length ≤ fuel →
      SpecSubst member s (replaceScanF member fuel pre s) := by
  intro fuel
  induction fuel with
  | zero =>
    intro s pre h
    have hs : s = [] := by
      cases s with
      | nil => rfl
      | cons c t => simp at h
    subst hs
    exact SpecSubst.nil
  | succ f ih =>
    intro s pre h
    cases s with
    | nil => exact SpecSubst.nil
    | cons c rest =>
      cases htk : matchTok (c :: rest) with
      | none =>
        simp only [replaceScanF, htk]
        exact SpecSubst.keep c rest _ (not_startsTok_of_matchTok_none _ htk)
          (ih rest (pre ++ [c]) (Nat.le_of_succ_le_succ (by simpa using h)))
      | some pr =>
        obtain ⟨tok, rest'⟩ := pr
        obtain ⟨heq, htok⟩ := matchTok_sound (c :: rest) tok rest' htk
        simp only [replaceScanF, htk]
        rw [getSubstitution_no_dollar tok pre rest' member hm]
        have hlen : rest'.length ≤ f := by
          obtain ⟨u, hu⟩ := isTokL_head tok htok
          subst hu
          have hlen2 := congrArg List.length heq
          simp only [List.length_cons, List.length_append] at hlen2
          have h4 : rest.length + 1 ≤ f + 1 := by simpa using h
          omega
        rw [heq]
        exact SpecSubst.tok tok rest' _ htok (ih rest' (pre ++ tok) hlen)

/-- C1: the code contradicts the claim's (and its own documentation's)
reading of `preventFullImport`.  A namespace-only import of a module
configured with `preventFullImport = true` raises nothing — the rewrite
returns successfully and silently drops the statement — while the same
configuration does raise the error (with the module name in its message)
when a default specifier is present. -/
theorem c1_namespace_escapes_preventFullImport :
    visitModuleItems req0 cfgLibPrevent
        [ModuleItem.importDecl ⟨some "lib", 0⟩ [Specifier.importNamespaceSpecifier ⟨"NS", 0⟩ 0] 0] =
      Except.ok [] ∧
    visitModuleItems req0 cfgLibPrevent
        [ModuleItem.importDecl ⟨some "lib", 0⟩ [Specifier.importDefaultSpecifier ⟨"D", 0⟩ 0] 0] =
      Except.error (barfErr "Import of entire module lib not allowed due to preventFullImport setting") :=
  ⟨rfl, rfl⟩

/-- C2: for config `{ "lib": { transform: "lib/${member}" } }` and input
`import { A, B as C } from 'lib';`, the rewrite yields exactly
`import A from 'lib/A'; import C from 'lib/B';` in that order — the path
uses the imported member name and the emitted default specifier binds the
local/alias name — for every choice of the opaque node metadata. -/
theorem c2_named_import_splitting (req : String → Except String JsValue) (sm im1 sm1 im2 im3 sm2 nm : Nat) :
    visitModuleItems req cfgLib
        [ModuleItem.importDecl ⟨some "lib", sm⟩
          [Specifier.importSpecifier ⟨"A", im1⟩ none sm1,
           Specifier.importSpecifier ⟨"C", im2⟩ (some ⟨"B", im3⟩) sm2] nm] =
      Except.ok
        [ModuleItem.importDecl ⟨some "lib/A", sm⟩ [Specifier.importDefaultSpecifier ⟨"A", im1⟩ sm1] nm,
         ModuleItem.importDecl ⟨some "lib/B", sm⟩ [Specifier.importDefaultSpecifier ⟨"C", im2⟩ sm2] nm] := rfl

/-- C3 counterexample: with `skipDefaultConversion: true`, the non-aliased
specifier `A` (whose AST `imported` field is absent) is still converted to a
default specifier, so the output is `import A from 'lib/A'; import { B as C }
from 'lib/B';` — not the claimed `import { A } from 'lib/A'; ...`, whatever
representation the claimed named specifier `A` is given. -/
theorem c3_skipDefaultConversion_counterexample :
    visitModuleItems req0 cfgLibSkip
        [ModuleItem.importDecl ⟨some "lib", 0⟩
          [Specifier.importSpecifier ⟨"A", 0⟩ none 0,
           Specifier.importSpecifier ⟨"C", 0⟩ (some ⟨"B", 0⟩) 0] 0] =
      Except.ok
        [ModuleItem.importDecl ⟨some "lib/A", 0⟩ [Specifier.importDefaultSpecifier ⟨"A", 0⟩ 0] 0,
         ModuleItem.importDecl ⟨some "lib/B", 0⟩ [Specifier.importSpecifier ⟨"C", 0⟩ (some ⟨"B", 0⟩) 0] 0] ∧
    ([ModuleItem.importDecl ⟨some "lib/A", 0⟩ [Specifier.importDefaultSpecifier ⟨"A", 0⟩ 0] 0,
      ModuleItem.importDecl ⟨some "lib/B", 0⟩ [Specifier.importSpecifier ⟨"C", 0⟩ (some ⟨"B", 0⟩) 0] 0] :
        List ModuleItem) ≠
      [ModuleItem.importDecl ⟨some "lib/A", 0⟩ [Specifier.importSpecifier ⟨"A", 0⟩ none 0] 0,
       ModuleItem.importDecl ⟨some "lib/B", 0⟩ [Specifier.importSpecifier ⟨"C", 0⟩ (some ⟨"B", 0⟩) 0] 0] :=
  ⟨rfl, by decide⟩

/-- C3 amended: with `skipDefaultConversion: true`, only a named specifier
carrying an explicit (truthy) `imported` name — an aliased one — keeps named
syntax from the resolved path; one without it is converted to a default
specifier.  `import { A, B as C } from 'lib';` therefore yields
`import A from 'lib/A'; import { B as C } from 'lib/B';`. -/
theorem c3_skipDefaultConversion_amended (req : String → Except String JsValue) (sm im1 sm1 im2 im3 sm2 nm : Nat) :
    visitModuleItems req cfgLibSkip
        [ModuleItem.importDecl ⟨some "lib", sm⟩
          [Specifier.importSpecifier ⟨"A", im1⟩ none sm1,
           Specifier.importSpecifier ⟨"C", im2⟩ (some ⟨"B", im3⟩) sm2] nm] =
      Except.ok
        [ModuleItem.importDecl ⟨some "lib/A", sm⟩ [Specifier.importDefaultSpecifier ⟨"A", im1⟩ sm1] nm,
         ModuleItem.importDecl ⟨some "lib/B", sm⟩ [Specifier.importSpecifier ⟨"C", im2⟩ (some ⟨"B", im3⟩) sm2] nm] := rfl

/-- C4: the code contradicts the claim for namespace specifiers.  A
namespace import of a configured module (with `preventFullImport` false) is
silently dropped — the rewrite emits zero statements for it — while a
default specifier is indeed re-emitted as its own unchanged declaration. -/
theorem c4_namespace_import_dropped :
    visitModuleItems req0 cfgLib
        [ModuleItem.importDecl ⟨some "lib", 0⟩ [Specifier.importNamespaceSpecifier ⟨"NS", 0⟩ 0] 0] =
      Except.ok [] ∧
    visitModuleItems req0 cfgLib
        [ModuleItem.importDecl ⟨some "lib", 0⟩ [Specifier.importDefaultSpecifier ⟨"D", 0⟩ 0] 0] =
      Except.ok [ModuleItem.importDecl ⟨some "lib", 0⟩ [Specifier.importDefaultSpecifier ⟨"D", 0⟩ 0] 0] :=
  ⟨rfl, rfl⟩

/-- C5: with an empty configuration table the rewrite is the identity on
every statement sequence (the input list is returned as is). -/
theorem c5_empty_config_identity (req : String → Except String JsValue) (nodes : List ModuleItem) :
    visitModuleItems req (mkOpts []) nodes = Except.ok nodes := rfl

/-- C6 counterexample: the claimed passthrough is not universal.  The
candidacy test `node.source.value in opts` consults the prototype chain, so
an import from a module named after an `Object.prototype` property — here
`'toString'`, not a key of the `lib` configuration, as the second conjunct
records — is treated as a transform candidate with an all-`undefined` rule:
`import { A } from 'toString';` is rewritten to a default import whose
source value is `undefined`, not passed through unchanged. -/
theorem c6_prototype_chain_counterexample :
    visitModuleItems req0 cfgLib
        [ModuleItem.importDecl ⟨some "toString", 0⟩ [Specifier.importSpecifier ⟨"A", 0⟩ none 0] 0] =
      Except.ok [ModuleItem.importDecl ⟨none, 0⟩ [Specifier.importDefaultSpecifier ⟨"A", 0⟩ 0] 0] ∧
    lookupOpts cfgLib "toString" = none ∧
    ([ModuleItem.importDecl ⟨none, 0⟩ [Specifier.importDefaultSpecifier ⟨"A", 0⟩ 0] 0] :
        List ModuleItem) ≠
      [ModuleItem.importDecl ⟨some "toString", 0⟩ [Specifier.importSpecifier ⟨"A", 0⟩ none 0] 0] :=
  ⟨rfl, rfl, by decide⟩

/-- C6 amended: frame property.  Any statement that is not a transform
candidate — not an import declaration, or an import whose source path is
neither a configured key nor one of the `Object.prototype` property names
that the `in` operator finds on the options object (`constructor`,
`toString`, `hasOwnProperty`, ..., `__proto__`) — appears in a successful
output unchanged, exactly between the rewrites of its left and right
neighbours.  (An import from a module named after an `Object.prototype`
property is instead a candidate and gets rewritten, as the counterexample
shows.) -/
theorem c6_nonparticipating_passthrough (req : String → Except String JsValue) (opts : List (String × SubOpts)) (xs ys out : List ModuleItem) (s : ModuleItem)
    (hs : isValidTransformCandidate opts s = false)
    (h : visitModuleItems req opts (xs ++ s :: ys) = Except.ok out) :
    ∃ oxs oys, visitModuleItems req opts xs = Except.ok oxs ∧
      visitModuleItems req opts ys = Except.ok oys ∧ out = oxs ++ s :: oys := by
  unfold visitModuleItems at h ⊢
  by_cases he : opts.isEmpty
  · rw [if_pos he] at h
    refine ⟨xs, ys, by rw [if_pos he], by rw [if_pos he], ?_⟩
    injection h with h
    exact h.symm
  · rw [if_neg he] at h
    rw [transformNodes_append] at h
    cases h1 : transformNodes req opts xs with
    | error e => rw [h1] at h; simp at h
    | ok a =>
      rw [h1, transformNodes_noncand req opts s ys hs] at h
      cases h2 : transformNodes req opts ys with
      | error e => rw [h2] at h; simp at h
      | ok b =>
        rw [h2] at h
        refine ⟨a, b, by rw [if_neg he], by rw [if_neg he], ?_⟩
        injection h with h
        exact h.symm

/-- C6 witness: the frame property applied to a concrete sequence of two
non-import statements under the `lib` configuration. -/
theorem c6_nonparticipating_passthrough_witness :
    ∃ oxs oys, visitModuleItems req0 cfgLib [ModuleItem.other 5] = Except.ok oxs ∧
      visitModuleItems req0 cfgLib [] = Except.ok oys ∧
      [ModuleItem.other 5, ModuleItem.other 7] = oxs ++ ModuleItem.other 7 :: oys :=
  c6_nonparticipating_passthrough req0 cfgLib [ModuleItem.other 5] [] [ModuleItem.other 5, ModuleItem.other 7] (ModuleItem.other 7) rfl rfl

/-- C8: with a rule whose `style` flag is true, a named specifier's emitted
statements are exactly its converted declaration (source = the resolved
path) immediately followed by a side-effect-only declaration (no specifiers)
whose source is the resolved path with the literal suffix `/style`; and
concretely, `import { Button } from 'antd';` under
`{ "antd": { transform: "antd/es/${member}", style: true } }` yields
`import Button from 'antd/es/Button'; import 'antd/es/Button/style';`. -/
theorem c8_style_injection (req : String → Except String JsValue) (rule : SubOpts) (src : Source) (nMeta : Nat) (lcl : Ident) (imported : Option Ident) (sMeta : Nat) (p : Option String)
    (hstyle : rule.style = true)
    (hres : transformImportPath req rule.transform (actualImport lcl imported) = Except.ok p) :
    emitSpecifier req rule src nMeta (Specifier.importSpecifier lcl imported sMeta) =
      Except.ok [ModuleItem.importDecl ⟨p, src.srcMeta⟩ [newSpecifier rule lcl imported sMeta] nMeta,
                 ModuleItem.importDecl ⟨some (jsStr p ++ "/style"), src.srcMeta⟩ [] nMeta] ∧
    visitModuleItems req cfgAntd
        [ModuleItem.importDecl ⟨some "antd", 0⟩ [Specifier.importSpecifier ⟨"Button", 0⟩ none 0] 0] =
      Except.ok
        [ModuleItem.importDecl ⟨some "antd/es/Button", 0⟩ [Specifier.importDefaultSpecifier ⟨"Button", 0⟩ 0] 0,
         ModuleItem.importDecl ⟨some "antd/es/Button/style", 0⟩ [] 0] := by
  constructor
  · simp only [emitSpecifier, hres, hstyle, if_true]
  · rfl

/-- C8 witness: the style-injection theorem applied to the `Button`
specifier of the concrete `antd` configuration. -/
theorem c8_style_injection_witness :
    emitSpecifier req0 (normalizeOpts rawAntd) ⟨some "antd", 0⟩ 0 (Specifier.importSpecifier ⟨"Button", 0⟩ none 0) =
      Except.ok [ModuleItem.importDecl ⟨some "antd/es/Button", 0⟩ [newSpecifier (normalizeOpts rawAntd) ⟨"Button", 0⟩ none 0] 0,
                 ModuleItem.importDecl ⟨some (jsStr (some "antd/es/Button") ++ "/style"), 0⟩ [] 0] ∧
    visitModuleItems req0 cfgAntd
        [ModuleItem.importDecl ⟨some "antd", 0⟩ [Specifier.importSpecifier ⟨"Button", 0⟩ none 0] 0] =
      Except.ok
        [ModuleItem.importDecl ⟨some "antd/es/Button", 0⟩ [Specifier.importDefaultSpecifier ⟨"Button", 0⟩ 0] 0,
         ModuleItem.importDecl ⟨some "antd/es/Button/style", 0⟩ [] 0] :=
  c8_style_injection req0 (normalizeOpts rawAntd) ⟨some "antd", 0⟩ 0 ⟨"Button", 0⟩ none 0 (some "antd/es/Button") rfl rfl

/-- C7 counterexample: the replacement string is processed by the host's
`$`-substitution rules, so `resolve` does not always insert the member name
itself.  For template `lib/${member}` and member name `$$` (a legal
identifier), the code produces `lib/$`, while the claim — every placeholder
occurrence replaced by the member name, no other character altered, here
formalized by `SpecSubst` — demands `lib/$$`. -/
theorem c7_placeholder_substitution_counterexample :
    transformImportPath req0 (JsValue.str "lib/$\x7bmember\x7d") "$$" = Except.ok (some "lib/$") ∧
    SpecSubst ("$$" : String).toList ("lib/$\x7bmember\x7d" : String).toList ("lib/$$" : String).toList ∧
    ("lib/$" : String) ≠ "lib/$$" := by
  refine ⟨rfl, ?_, by decide⟩
  have htok : IsTokL ('$' :: braceO :: (([] : List Char) ++ ['m', 'e', 'm', 'b', 'e', 'r'] ++ ([] : List Char) ++ [braceC])) :=
    ⟨[], ['m', 'e', 'm', 'b', 'e', 'r'], [], rfl, rfl, by decide, rfl⟩
  have hL : ("lib/$\x7bmember\x7d" : String).toList =
      'l' :: 'i' :: 'b' :: '/' ::
        (('$' :: braceO :: (([] : List Char) ++ ['m', 'e', 'm', 'b', 'e', 'r'] ++ ([] : List Char) ++ [braceC])) ++ ([] : List Char)) := by
    decide
  have hR : ("lib/$$" : String).toList =
      'l' :: 'i' :: 'b' :: '/' :: (("$$" : String).toList ++ ([] : List Char)) := by decide
  rw [hL, hR]
  refine SpecSubst.keep _ _ _ (not_startsTok_of_head 'l' _ (by decide)) ?_
  refine SpecSubst.keep _ _ _ (not_startsTok_of_head 'i' _ (by decide)) ?_
  refine SpecSubst.keep _ _ _ (not_startsTok_of_head 'b' _ (by decide)) ?_
  refine SpecSubst.keep _ _ _ (not_startsTok_of_head '/' _ (by decide)) ?_
  exact SpecSubst.tok _ _ _ htok SpecSubst.nil

/-- C7 amended: for any literal pattern template (the string is not of the
external-file shape) and any member name containing no `$` character — in
particular any ordinary identifier — the empty template is falsy and
`resolve` returns `undefined` (no path, rather than the empty string), and
a nonempty template is returned with every occurrence of a placeholder
token — case-insensitive `${member}`, tolerant of one whitespace character
of padding — replaced by the member name and no other character altered
(the `SpecSubst` relation).  Member names containing `$` instead undergo
the host's replacement-string substitution, as the counterexample shows. -/
theorem c7_literal_pattern_substitution (req : String → Except String JsValue) (t m : String)
    (hjs : (endsWithJsCI t && !hasDollarBrace t) = false)
    (hm : '$' ∉ m.toList) :
    (t = "" → transformImportPath req (JsValue.str t) m = Except.ok none) ∧
    (t ≠ "" →
      transformImportPath req (JsValue.str t) m = Except.ok (some (jsReplaceMemberG t m)) ∧
      SpecSubst m.toList t.toList (jsReplaceMemberG t m).toList) := by
  constructor
  · intro ht
    subst ht
    rfl
  · intro ht
    constructor
    · have hf : (JsValue.str t).jsFalsy = false := by
        simp only [JsValue.jsFalsy, beq_eq_false_iff_ne, ne_eq]
        exact ht
      simp only [transformImportPath, hf, Bool.false_eq_true, if_false, JsValue.jsToString,
        JsValue.isFn, Bool.or_false, hjs]
    · exact specSubst_replaceScanF m.toList hm t.toList.length t.toList [] (Nat.le_refl _)

/-- C7 witness: the amended substitution theorem applied to the template
`lib/${member}` and the member name `A`. -/
theorem c7_literal_pattern_substitution_witness :
    (endsWithJsCI "lib/$\x7bmember\x7d" && !hasDollarBrace "lib/$\x7bmember\x7d") = false ∧
    '$' ∉ ("A" : String).toList ∧
    ((("lib/$\x7bmember\x7d" : String) = "" →
        transformImportPath req0 (JsValue.str "lib/$\x7bmember\x7d") "A" = Except.ok none) ∧
     (("lib/$\x7bmember\x7d" : String) ≠ "" →
        transformImportPath req0 (JsValue.str "lib/$\x7bmember\x7d") "A" =
          Except.ok (some (jsReplaceMemberG "lib/$\x7bmember\x7d" "A")) ∧
        SpecSubst ("A" : String).toList ("lib/$\x7bmember\x7d" : String).toList
          (jsReplaceMemberG "lib/$\x7bmember\x7d" "A").toList)) :=
  ⟨by decide, by decide,
    c7_literal_pattern_substitution req0 "lib/$\x7bmember\x7d" "A" (by decide) (by decide)⟩

/-- C9 counterexample: an exception thrown by the transform callable itself
is propagated to the caller unchanged — it is not raised as a
`TransformFunctionError` (a `barf`-style plugin error): the code calls the
function outside the try/catch block. -/
theorem c9_throwing_function_counterexample :
    transformImportPath req0 (JsValue.fn throwingFn) "A" = Except.error (Err.thrown "boom") ∧
    Err.isPlugin (Err.thrown "boom") = false :=
  ⟨rfl, rfl⟩

/-- C9 amended: a callable template's value is returned verbatim; a failing
load of an external-file reference, or a loaded value that is not callable,
is raised as the plugin's `TransformFunctionError` naming the reference; but
an exception thrown by the invocation itself propagates unchanged, not
wrapped as a plugin error. -/
theorem c9_transform_function_errors (req : String → Except String JsValue)
    (f : String → Except String String) (ref m s e : String) (v : JsValue)
    (href : (endsWithJsCI ref && !hasDollarBrace ref) = true) :
    (f m = Except.ok s → transformImportPath req (JsValue.fn f) m = Except.ok (some s)) ∧
    (f m = Except.error e → transformImportPath req (JsValue.fn f) m = Except.error (Err.thrown e)) ∧
    (req ref = Except.error e →
      transformImportPath req (JsValue.str ref) m =
        Except.error (barfErr ("failed to require transform file " ++ ref))) ∧
    (req ref = Except.ok v → v.isFn = false →
      transformImportPath req (JsValue.str ref) m =
        Except.error (barfErr ("expected transform function to be exported from " ++ ref))) ∧
    (req ref = Except.ok (JsValue.fn f) → f m = Except.ok s →
      transformImportPath req (JsValue.str ref) m = Except.ok (some s)) := by
  have hne : ref ≠ "" := by
    intro hr
    subst hr
    simp [endsWithJsCI] at href
  have hfal : (JsValue.str ref).jsFalsy = false := by
    simp only [JsValue.jsFalsy, beq_eq_false_iff_ne, ne_eq]
    exact hne
  refine ⟨?_, ?_, ?_, ?_, ?_⟩
  · intro h
    simp [transformImportPath, JsValue.jsFalsy, JsValue.isFn, h]
  · intro h
    simp [transformImportPath, JsValue.jsFalsy, JsValue.isFn, h]
  · intro h
    simp [transformImportPath, hfal, JsValue.isFn, JsValue.jsToString, href, h]
  · intro h1 h2
    cases v with
    | fn g => simp [JsValue.isFn] at h2
    | str sv => simp [transformImportPath, hfal, JsValue.isFn, JsValue.jsToString, href, h1]
    | undef => simp [transformImportPath, hfal, JsValue.isFn, JsValue.jsToString, href, h1]
  · intro h1 h2
    simp [transformImportPath, hfal, JsValue.isFn, JsValue.jsToString, href, h1, h2]

/-- C9 witness: the amended transform-function theorem applied to a concrete
callable, reference, member name and loader. -/
theorem c9_transform_function_errors_witness :
    (endsWithJsCI "t.js" && !hasDollarBrace "t.js") = true ∧
    ((fnOkA "A" = Except.ok "lib/A" →
        transformImportPath req0 (JsValue.fn fnOkA) "A" = Except.ok (some "lib/A")) ∧
     (fnOkA "A" = Except.error "boom" →
        transformImportPath req0 (JsValue.fn fnOkA) "A" = Except.error (Err.thrown "boom")) ∧
     (req0 "t.js" = Except.error "boom" →
        transformImportPath req0 (JsValue.str "t.js") "A" =
          Except.error (barfErr ("failed to require transform file " ++ "t.js"))) ∧
     (req0 "t.js" = Except.ok JsValue.undef → JsValue.undef.isFn = false →
        transformImportPath req0 (JsValue.str "t.js") "A" =
          Except.error (barfErr ("expected transform function to be exported from " ++ "t.js"))) ∧
     (req0 "t.js" = Except.ok (JsValue.fn fnOkA) → fnOkA "A" = Except.ok "lib/A" →
        transformImportPath req0 (JsValue.str "t.js") "A" = Except.ok (some "lib/A"))) :=
  ⟨by decide,
    c9_transform_function_errors req0 fnOkA "t.js" "A" "lib/A" "boom" JsValue.undef (by decide)⟩

/-- C10: a bare side-effect import (`import 'lib';`, empty specifier list)
of a configured module with `preventFullImport` false is silently removed:
the rewrite emits zero statements for it. -/
theorem c10_bare_import_removed (req : String → Except String JsValue) (opts : List (String × SubOpts)) (src : Source) (nMeta : Nat) (rule : SubOpts)
    (hl : lookupOpts opts (jsStr src.value) = some rule)
    (_hp : rule.preventFullImport = false) :
    visitModuleItems req opts [ModuleItem.importDecl src [] nMeta] = Except.ok [] := by
  unfold visitModuleItems
  rw [lookupOpts_isEmpty_false opts (jsStr src.value) rule hl]
  have hin : jsInOpts opts (jsStr src.value) = true := by
    simp [jsInOpts, hl]
  have hrule : ruleOf opts (jsStr src.value) = rule := by
    simp [ruleOf, hl]
  simp only [Bool.false_eq_true, if_false, transformNodes, hin, if_true, hrule, processImport,
    List.any_nil, Bool.false_and, emitSpecifiers, List.nil_append]

/-- C10 witness: the bare import `import 'lib';` under the `lib`
configuration is removed. -/
theorem c10_bare_import_removed_witness :
    visitModuleItems req0 cfgLib [ModuleItem.importDecl ⟨some "lib", 0⟩ [] 0] = Except.ok [] :=
  c10_bare_import_removed req0 cfgLib ⟨some "lib", 0⟩ 0 (normalizeOpts rawLib) rfl rfl

end TransformImport
